import Mathlib

/-!
Verification of AoikRegistryEditor against its natural-language specification.

The Python source is shallowly embedded: mutable objects become explicit
state records threaded through the operations, raised exceptions become
`Except` errors (carrying the state at the moment of raising, since a
Python exception leaves prior mutations of `self` in place), and event
notifications become traces (lists of event names, possibly paired with
the data observable at emission time).  Tkinter-native widget state that
the Python code never reads back (colors, geometry, focus) is not
modeled; widget state the code does read back (the native menu's child
count, the entry widget's text) is modeled explicitly.
-/

namespace AoikRE

/-! ## Generic helpers: Python list / dict primitives -/

/-- Insert at a clamped non-negative position, like Python list insertion
after index normalisation: position 0 prepends, a position past the end
appends. -/
def listInsertAt {α : Type} : Nat → α → List α → List α
  | 0, x, l => x :: l
  | _ + 1, x, [] => [x]
  | n + 1, x, a :: l => a :: listInsertAt n x l

/-- Python `list.insert(i, x)`: a negative index counts from the end
(clamped to 0), a too-large index appends. In particular `insert(-1, x)`
on a non-empty list inserts BEFORE the last element, it does not append. -/
def pyListInsert {α : Type} (l : List α) (i : Int) (x : α) : List α :=
  let pos : Nat := if i < 0 then (((l.length : Int) + i).toNat) else min i.toNat l.length
  listInsertAt pos x l

theorem listInsertAt_length {α : Type} (n : Nat) (x : α) (l : List α) :
    (listInsertAt n x l).length = l.length + 1 := by
  induction n generalizing l with
  | zero => simp [listInsertAt]
  | succ n ih =>
    cases l with
    | nil => simp [listInsertAt]
    | cons a l => simp [listInsertAt, ih]

theorem listInsertAt_eraseIdx {α : Type} (n : Nat) (x : α) (l : List α)
    (hn : n ≤ l.length) :
    (listInsertAt n x l).eraseIdx n = l := by
  induction n generalizing l with
  | zero => simp [listInsertAt, List.eraseIdx]
  | succ n ih =>
    cases l with
    | nil => simp at hn
    | cons a l =>
      simp only [List.length_cons, Nat.succ_le_succ_iff] at hn
      simp [listInsertAt, List.eraseIdx, ih l hn]

/-! ## Eventor (tkinterutil/eventor.py)

`Eventor._event_handlers` is a Python dict from event name (a string, or
`None` meaning every event) to the list of registered handler wrappers.
A Python dict preserves key insertion order; it is embedded as an
association list.  Handlers are abstract values of a type `η` with
decidable equality (wrapper equality in the source compares only the
wrapped handler, ignoring `need_arg`). -/

/-- Handler-registry lookup: first association-list entry whose key
equals the event name. -/
def ehLookup {η : Type} : List (Option String × List η) → Option String → Option (List η)
  | [], _ => none
  | (k, hs) :: rest, e => if e = k then some hs else ehLookup rest e

/-- Handlers registered for an event, or `[]` when none: the net set of
handlers the two `for` loops of `handler_notify` would invoke for one key. -/
def lookD {η : Type} (st : List (Option String × List η)) (e : Option String) : List η :=
  (ehLookup st e).getD []

/-- `Eventor.handler_add`: create the handler list on first registration
(dict insertion appends the new key), refuse duplicate registration of
the same handler for the same event, otherwise append to the list. -/
def handler_add {η : Type} [DecidableEq η] :
    List (Option String × List η) → Option String → η →
      Except String (List (Option String × List η))
  | [], event, h => .ok [(event, [h])]
  | (k, hs) :: rest, event, h =>
    if event = k then
      if h ∈ hs then .error "Handler has already been added for event"
      else .ok ((k, hs ++ [h]) :: rest)
    else
      match handler_add rest event h with
      | .ok rest1 => .ok ((k, hs) :: rest1)
      | .error m => .error m

/-- Fold `handler_add` over a registration sequence, stopping at the
first duplicate-registration error. -/
def addAll {η : Type} [DecidableEq η] :
    List (Option String × List η) → List (Option String × η) →
      Except String (List (Option String × List η))
  | st, [] => .ok st
  | st, (e, h) :: rest =>
    match handler_add st e h with
    | .ok st1 => addAll st1 rest
    | .error m => .error m

/-- `Eventor.handler_notify`: if the event has no handlers and there are
no `None` (all-events) handlers, return with no invocation; otherwise
invoke the event's handlers in list order, then the `None` handlers in
list order.  The returned list is the invocation sequence; the handler
registry itself is never modified by notification. -/
def handler_notify {η : Type} (st : List (Option String × List η))
    (event : Option String) : List η :=
  if (ehLookup st event).isNone && (ehLookup st none).isNone then []
  else
    (match ehLookup st event with
     | some hs => hs
     | none => []) ++
    (match ehLookup st none with
     | some hs => hs
     | none => [])

theorem handler_notify_eq_lookD {η : Type} (st : List (Option String × List η))
    (event : Option String) :
    handler_notify st event = lookD st event ++ lookD st none := by
  unfold handler_notify lookD
  cases h1 : ehLookup st event <;> cases h2 : ehLookup st none <;> simp

theorem lookD_handler_add {η : Type} [DecidableEq η]
    (st st1 : List (Option String × List η)) (e0 : Option String) (h : η)
    (hadd : handler_add st e0 h = .ok st1) (e : Option String) :
    lookD st1 e = lookD st e ++ (if e0 = e then [h] else []) := by
  induction st generalizing st1 with
  | nil =>
    simp only [handler_add, Except.ok.injEq] at hadd
    subst hadd
    by_cases he : e = e0
    · subst he; simp [lookD, ehLookup]
    · have he2 : ¬e0 = e := fun h => he h.symm
      simp [lookD, ehLookup, he, he2]
  | cons p rest ih =>
    obtain ⟨k, hs⟩ := p
    by_cases hek : e0 = k
    · subst hek
      simp only [handler_add, if_pos rfl] at hadd
      by_cases hmem : h ∈ hs
      · rw [if_pos hmem] at hadd
        simp at hadd
      · rw [if_neg hmem] at hadd
        injection hadd with hadd
        subst hadd
        by_cases he : e = e0
        · subst he; simp [lookD, ehLookup]
        · have he2 : ¬e0 = e := fun h => he h.symm
          simp [lookD, ehLookup, he, he2]
    · simp only [handler_add, if_neg hek] at hadd
      cases hrec : handler_add rest e0 h with
      | ok rest1 =>
        rw [hrec] at hadd
        injection hadd with hadd
        subst hadd
        by_cases he : e = k
        · subst he
          have he2 : ¬e0 = e := hek
          simp [lookD, ehLookup, he2]
        · simp only [lookD, ehLookup, if_neg he]
          exact ih rest1 hrec
      | error m =>
        rw [hrec] at hadd
        simp at hadd

theorem lookD_addAll {η : Type} [DecidableEq η]
    (ops : List (Option String × η)) (st0 st : List (Option String × List η))
    (hadd : addAll st0 ops = .ok st) (e : Option String) :
    lookD st e = lookD st0 e ++ (ops.filter (fun p => decide (p.1 = e))).map Prod.snd := by
  induction ops generalizing st0 with
  | nil =>
    simp only [addAll, Except.ok.injEq] at hadd
    subst hadd; simp
  | cons p rest ih =>
    obtain ⟨e0, h⟩ := p
    simp only [addAll] at hadd
    cases h1 : handler_add st0 e0 h with
    | ok st1 =>
      simp only [h1] at hadd
      have step := lookD_handler_add st0 st1 e0 h h1 e
      have recr := ih st1 hadd
      rw [recr, step]
      by_cases he : e0 = e
      · subst he; simp
      · simp [he]
    | error m => simp [h1] at hadd

/-! ## ListboxVidget (tkinterutil/listbox.py)

The widget state the Python code reads back is embedded: the items list,
the cached active index (`_indexcur`), the `_is_changing` and
`_is_resetting` guard flags, and whether the native listbox is disabled.
Mutating operations return `Except (LbError × state) (state × trace)`:
an error carries the state at the moment of raising (a Python exception
does not roll back prior mutations of `self`), an ok result carries the
new state and the list of notified event names in order. -/

inductive LbError
  | circularCall
  | disabledError
  | indexError
  | valueError
deriving DecidableEq, Repr

structure ListboxState (α : Type) where
  items : List α
  indexcur : Int
  isChanging : Bool
  isResetting : Bool
  enabled : Bool
deriving DecidableEq, Repr

def ITEMS_CHANGE_SOON : String := "ITEMS_CHANGE_SOON"

def ITEMS_CHANGE_DONE : String := "ITEMS_CHANGE_DONE"

def ITEMCUR_CHANGE_SOON : String := "ITEMCUR_CHANGE_SOON"

def ITEMCUR_CHANGE_DONE : String := "ITEMCUR_CHANGE_DONE"

/-- `ListboxVidget.size`. -/
def lb_size {α : Type} (st : ListboxState α) : Nat := st.items.length

/-- `ListboxVidget.index_is_valid`: `0 <= index < size`; -1 is not valid. -/
def index_is_valid {α : Type} (st : ListboxState α) (i : Int) : Bool :=
  decide (0 ≤ i) && decide (i < (lb_size st : Int))

/-- `ListboxVidget.index_is_valid_or_void`. -/
def index_is_valid_or_void {α : Type} (st : ListboxState α) (i : Int) : Bool :=
  (i == -1) || index_is_valid st i

/-- `ListboxVidget.index_last`: last index, or -1 when empty. -/
def index_last {α : Type} (st : ListboxState α) : Int := (lb_size st : Int) - 1

/-- `ListboxVidget.indexcur` (non-internal): the cached active index if it
is valid for the current items list, else -1. -/
def indexcur_get {α : Type} (st : ListboxState α) : Int :=
  if index_is_valid st st.indexcur then st.indexcur else -1

/-- `ListboxVidget._listbox_widget_update`: re-renders the native widget;
the only modeled effect is clearing the cached active index when
`keep_active` is false. -/
def listbox_widget_update {α : Type} (st : ListboxState α) (keep_active : Bool) :
    ListboxState α :=
  if keep_active then st else { st with indexcur := -1 }

/-- `ListboxVidget.items_set`: refuses while disabled, then while already
changing, both before any mutation; then brackets the items replacement
with ITEMS events when `notify`. -/
def items_set {α : Type} (st : ListboxState α) (items : List α)
    (notify keep_active : Bool) :
    Except (LbError × ListboxState α) (ListboxState α × List String) :=
  if ¬st.enabled then .error (.disabledError, st)
  else if st.isChanging then .error (.circularCall, st)
  else
    let st1 := { st with isChanging := true }
    let tr1 := if notify then [ITEMS_CHANGE_SOON] else []
    let st2 := { st1 with items := items }
    let st3 := listbox_widget_update st2 keep_active
    let tr2 := if notify then [ITEMS_CHANGE_DONE] else []
    .ok ({ st3 with isChanging := false }, tr1 ++ tr2)

/-- `ListboxVidget.indexcur_set`: rejects an invalid (non -1,
out-of-range) index, then refuses while disabled, then while already
changing, all before any mutation; then sets the resetting flag while
the change is in flight and caches the new index. -/
def indexcur_set {α : Type} (st : ListboxState α) (index : Int) (notify : Bool) :
    Except (LbError × ListboxState α) (ListboxState α × List String) :=
  if ¬index_is_valid_or_void st index then .error (.indexError, st)
  else if ¬st.enabled then .error (.disabledError, st)
  else if st.isChanging then .error (.circularCall, st)
  else
    let st1 := { st with isChanging := true, isResetting := index == st.indexcur }
    let tr1 := if notify then [ITEMCUR_CHANGE_SOON] else []
    let st2 := { st1 with indexcur := index }
    let tr2 := if notify then [ITEMCUR_CHANGE_DONE] else []
    .ok ({ st2 with isResetting := false, isChanging := false }, tr1 ++ tr2)

/-- `ListboxVidget.item_insert`: notifies pre-change events, inserts into
the items list at the given index (Python semantics; `None` defaults to
the active index, -1 when there is no selection), shifts the active
index up by one when it is >= the insertion index, then updates the
selection through `indexcur_set` — which is where the disabled and
re-entrancy guards fire, AFTER the items list has been mutated. -/
def item_insert {α : Type} (st : ListboxState α) (item : α) (index? : Option Int)
    (notify keep_active : Bool) :
    Except (LbError × ListboxState α) (ListboxState α × List String) :=
  let tr1 := if notify then [ITEMCUR_CHANGE_SOON, ITEMS_CHANGE_SOON] else []
  let active := indexcur_get st
  let index := index?.getD active
  let st1 := { st with items := pyListInsert st.items index item }
  let active1 := if active ≠ -1 ∧ active ≥ index then active + 1 else active
  match indexcur_set st1 active1 false with
  | .error e => .error e
  | .ok (st2, _) =>
    let st3 := listbox_widget_update st2 keep_active
    let tr2 := if notify then [ITEMS_CHANGE_DONE, ITEMCUR_CHANGE_DONE] else []
    .ok (st3, tr1 ++ tr2)

/-- `ListboxVidget.item_remove`: rejects an invalid index, notifies
pre-change events, deletes from the items list, clamps the active index
down to the new last index when it overflows (it is NOT shifted down
otherwise), then updates the selection through `indexcur_set` — which is
where the disabled and re-entrancy guards fire, AFTER the deletion. -/
def item_remove {α : Type} (st : ListboxState α) (index : Int)
    (notify keep_active : Bool) :
    Except (LbError × ListboxState α) (ListboxState α × List String) :=
  if ¬index_is_valid st index then .error (.valueError, st)
  else
    let tr1 := if notify then [ITEMCUR_CHANGE_SOON, ITEMS_CHANGE_SOON] else []
    let active := indexcur_get st
    let st1 := { st with items := st.items.eraseIdx index.toNat }
    let active1 :=
      if active ≠ -1 then
        (if active > index_last st1 then index_last st1 else active)
      else active
    match indexcur_set st1 active1 false with
    | .error e => .error e
    | .ok (st2, _) =>
      let st3 := listbox_widget_update st2 keep_active
      let tr2 := if notify then [ITEMS_CHANGE_DONE, ITEMCUR_CHANGE_DONE] else []
      .ok (st3, tr1 ++ tr2)

theorem pyListInsert_length {α : Type} (l : List α) (i : Int) (x : α) :
    (pyListInsert l i x).length = l.length + 1 := by
  unfold pyListInsert
  exact listInsertAt_length _ x l

theorem pyListInsert_nonneg {α : Type} (l : List α) (i : Int) (x : α)
    (h0 : 0 ≤ i) (h1 : i ≤ (l.length : Int)) :
    pyListInsert l i x = listInsertAt i.toNat x l := by
  unfold pyListInsert
  rw [if_neg (by omega), Nat.min_eq_left (by omega)]

theorem valid_or_void_iff {α : Type} (st : ListboxState α) (i : Int) :
    index_is_valid_or_void st i = true ↔
      (i = -1 ∨ (0 ≤ i ∧ i < (st.items.length : Int))) := by
  simp [index_is_valid_or_void, index_is_valid, lb_size]

theorem indexcur_get_mem {α : Type} (st : ListboxState α) :
    indexcur_get st = -1 ∨
      (0 ≤ indexcur_get st ∧ indexcur_get st < (st.items.length : Int)) := by
  unfold indexcur_get
  by_cases h : index_is_valid st st.indexcur = true
  · right
    rw [if_pos h]
    simpa [index_is_valid, lb_size] using h
  · left
    rw [if_neg h]

theorem indexcur_get_of_valid_or_void {α : Type} (st : ListboxState α)
    (h : index_is_valid_or_void st st.indexcur = true) :
    indexcur_get st = st.indexcur := by
  unfold indexcur_get
  by_cases hv : index_is_valid st st.indexcur = true
  · rw [if_pos hv]
  · rw [if_neg hv]
    unfold index_is_valid_or_void at h
    cases hb : (st.indexcur == -1) with
    | true => exact (beq_iff_eq.mp hb).symm
    | false => rw [hb] at h; simp at h; exact absurd h hv

/-- The selection update inside `item_insert` (with defaulted index)
always passes the index-validity check of `indexcur_set`. -/
theorem insert_shift_valid_or_void {α : Type} (st : ListboxState α) (x : α) :
    index_is_valid_or_void { st with items := pyListInsert st.items (indexcur_get st) x }
      (if indexcur_get st ≠ -1 ∧ indexcur_get st ≥ indexcur_get st then indexcur_get st + 1
       else indexcur_get st) = true := by
  have hb := indexcur_get_mem st
  rw [valid_or_void_iff]
  simp only [pyListInsert_length]
  rcases hb with h | h
  · rw [h]
    simp
  · rw [if_pos ⟨by omega, le_refl _⟩]
    right
    push_cast
    omega

theorem indexcur_set_err {α : Type} (st : ListboxState α) (j : Int) (notify : Bool)
    (h1 : index_is_valid_or_void st j = true)
    (hmode : st.enabled = false ∨ st.isChanging = true) :
    indexcur_set st j notify =
      .error ((if st.enabled = false then LbError.disabledError else LbError.circularCall), st) := by
  unfold indexcur_set
  rcases hmode with h | h
  · rw [if_neg (by simp [h1]), if_pos (by simp [h]), if_pos h]
  · by_cases he : st.enabled = false
    · rw [if_neg (by simp [h1]), if_pos (by simp [he]), if_pos he]
    · have he2 : st.enabled = true := by
        cases h2 : st.enabled
        · exact absurd h2 he
        · rfl
      rw [if_neg (by simp [h1]), if_neg (by simp [he2]), if_pos h, if_neg he]

theorem indexcur_set_ok {α : Type} (st : ListboxState α) (j : Int)
    (h1 : index_is_valid_or_void st j = true)
    (h2 : st.enabled = true) (h3 : st.isChanging = false) :
    indexcur_set st j false =
      .ok ({ st with indexcur := j, isResetting := false, isChanging := false }, []) := by
  unfold indexcur_set
  rw [if_neg (by simp [h1]), if_neg (by simp [h2]), if_neg (by simp [h3])]
  rfl

theorem item_insert_err {α : Type} (st : ListboxState α) (x : α) (notify keep : Bool)
    (hmode : st.enabled = false ∨ st.isChanging = true) :
    item_insert st x none notify keep =
      .error ((if st.enabled = false then LbError.disabledError else LbError.circularCall),
        { st with items := pyListInsert st.items (indexcur_get st) x }) := by
  unfold item_insert
  simp only [Option.getD]
  rw [indexcur_set_err _ _ false (insert_shift_valid_or_void st x) hmode]

/-- The selection update inside `item_remove` (with a valid removal index)
always passes the index-validity check of `indexcur_set`. -/
theorem remove_clamp_valid_or_void {α : Type} (st : ListboxState α) (i : Int)
    (hvi : index_is_valid st i = true) :
    index_is_valid_or_void { st with items := st.items.eraseIdx i.toNat }
      (if indexcur_get st ≠ -1 then
        (if indexcur_get st > index_last { st with items := st.items.eraseIdx i.toNat }
         then index_last { st with items := st.items.eraseIdx i.toNat }
         else indexcur_get st)
       else indexcur_get st) = true := by
  have hb := indexcur_get_mem st
  have hvi2 : 0 ≤ i ∧ i < (st.items.length : Int) := by
    simpa [index_is_valid, lb_size] using hvi
  have hlen : (st.items.eraseIdx i.toNat).length + 1 = st.items.length :=
    List.length_eraseIdx_add_one (by omega)
  rw [valid_or_void_iff]
  simp only [index_last, lb_size]
  rcases hb with h | h
  · rw [if_neg (by simp [h])]
    left
    exact h
  · rw [if_pos (by omega)]
    by_cases hc : indexcur_get st > ((st.items.eraseIdx i.toNat).length : Int) - 1
    · rw [if_pos hc]
      omega
    · rw [if_neg hc]
      omega

theorem item_remove_err {α : Type} (st : ListboxState α) (i : Int) (notify keep : Bool)
    (hvi : index_is_valid st i = true)
    (hmode : st.enabled = false ∨ st.isChanging = true) :
    item_remove st i notify keep =
      .error ((if st.enabled = false then LbError.disabledError else LbError.circularCall),
        { st with items := st.items.eraseIdx i.toNat }) := by
  unfold item_remove
  rw [if_neg (by simp [hvi])]
  simp only [indexcur_set_err _ _ false (remove_clamp_valid_or_void st i hvi) hmode]

theorem items_set_err {α : Type} (st : ListboxState α) (xs : List α) (notify keep : Bool)
    (hmode : st.enabled = false ∨ st.isChanging = true) :
    items_set st xs notify keep =
      .error ((if st.enabled = false then LbError.disabledError else LbError.circularCall), st) := by
  unfold items_set
  rcases hmode with h | h
  · rw [if_pos (by simp [h]), if_pos h]
  · by_cases he : st.enabled = false
    · rw [if_pos (by simp [he]), if_pos he]
    · have he2 : st.enabled = true := by
        cases h2 : st.enabled
        · exact absurd h2 he
        · rfl
      rw [if_neg (by simp [he2]), if_pos h, if_neg he]

/-- Claim C3 (amended): every mutating ListboxVidget method raises the
dedicated DisabledError while the listbox is disabled and the dedicated
CircularCallError while a change is already in progress — never silently
succeeding — but only items_set and indexcur_set refuse up front with the
state unchanged; item_insert and item_remove raise the error from their
internal selection update, after the items list has already been mutated
(the error carries the mutated state). -/
theorem lb_mutators_guarded {α : Type} (st : ListboxState α) (xs : List α) (x : α)
    (j i : Int) (notify keep : Bool)
    (hj : index_is_valid_or_void st j = true)
    (hi : index_is_valid st i = true)
    (hmode : st.enabled = false ∨ st.isChanging = true) :
    items_set st xs notify keep =
      .error ((if st.enabled = false then LbError.disabledError else LbError.circularCall), st) ∧
    indexcur_set st j notify =
      .error ((if st.enabled = false then LbError.disabledError else LbError.circularCall), st) ∧
    item_insert st x none notify keep =
      .error ((if st.enabled = false then LbError.disabledError else LbError.circularCall),
        { st with items := pyListInsert st.items (indexcur_get st) x }) ∧
    item_remove st i notify keep =
      .error ((if st.enabled = false then LbError.disabledError else LbError.circularCall),
        { st with items := st.items.eraseIdx i.toNat }) :=
  ⟨items_set_err st xs notify keep hmode,
   indexcur_set_err st j notify hj hmode,
   item_insert_err st x notify keep hmode,
   item_remove_err st i notify keep hi hmode⟩

def lbW : ListboxState Nat :=
  { items := [10, 20], indexcur := 0, isChanging := false, isResetting := false, enabled := false }

/-- Claim C3 witness: a disabled listbox refuses items_set with DisabledError. -/
theorem lb_mutators_guarded_witness :
    items_set lbW [] true false = .error (.disabledError, lbW) := by
  have h := lb_mutators_guarded lbW [] 7 0 0 true false (by decide) (by decide) (Or.inl rfl)
  simpa using h.1

def lbC3 : ListboxState Nat :=
  { items := [], indexcur := -1, isChanging := true, isResetting := false, enabled := true }

/-- Claim C3 counterexample: a re-entrant item_insert does raise
CircularCallError, but only after the item has been inserted into the items
list, refuting "raises that re-entrancy error before performing any
mutation". -/
theorem lb_reentrant_insert_mutates_first :
    item_insert lbC3 7 none true true =
      .error (.circularCall,
        { items := [7], indexcur := -1, isChanging := true, isResetting := false,
          enabled := true }) ∧
    [7] ≠ lbC3.items :=
  ⟨rfl, by decide⟩

def lbC4 : ListboxState String :=
  { items := ["a", "b"], indexcur := -1, isChanging := false, isResetting := false,
    enabled := true }

/-- Claim C4: the source comment says the defaulted no-selection index -1
"works and means appending", but Python list.insert(-1, x) inserts before
the last element: with items ["a","b"] and no selection, item_insert yields
["a","c","b"], not the append ["a","b","c"]. -/
theorem item_insert_no_selection_not_append :
    item_insert lbC4 "c" none true true =
      .ok ({ items := ["a", "c", "b"], indexcur := -1, isChanging := false,
             isResetting := false, enabled := true },
        [ITEMCUR_CHANGE_SOON, ITEMS_CHANGE_SOON, ITEMS_CHANGE_DONE, ITEMCUR_CHANGE_DONE]) ∧
    ["a", "c", "b"] ≠ lbC4.items ++ ["c"] :=
  ⟨rfl, by decide⟩

theorem item_insert_ok {α : Type} (st : ListboxState α) (x : α) (i : Int)
    (hen : st.enabled = true) (hch : st.isChanging = false)
    (hsel : index_is_valid_or_void st st.indexcur = true)
    (hi0 : 0 ≤ i) (hin : i ≤ (st.items.length : Int)) :
    item_insert st x (some i) true true =
      .ok ({ st with
             items := listInsertAt i.toNat x st.items,
             indexcur :=
               if st.indexcur ≠ -1 ∧ st.indexcur ≥ i then st.indexcur + 1 else st.indexcur,
             isResetting := false, isChanging := false },
        [ITEMCUR_CHANGE_SOON, ITEMS_CHANGE_SOON, ITEMS_CHANGE_DONE, ITEMCUR_CHANGE_DONE]) := by
  have hget := indexcur_get_of_valid_or_void st hsel
  have hs : st.indexcur = -1 ∨ (0 ≤ st.indexcur ∧ st.indexcur < (st.items.length : Int)) :=
    (valid_or_void_iff st st.indexcur).mp hsel
  have hvv : index_is_valid_or_void { st with items := listInsertAt i.toNat x st.items }
      (if st.indexcur ≠ -1 ∧ st.indexcur ≥ i then st.indexcur + 1 else st.indexcur) = true := by
    rw [valid_or_void_iff]
    simp only [listInsertAt_length]
    rcases hs with h | h
    · rw [if_neg (by simp [h])]
      left
      exact h
    · by_cases hge : st.indexcur ≥ i
      · rw [if_pos ⟨by omega, hge⟩]
        right
        push_cast
        omega
      · rw [if_neg (by tauto)]
        right
        push_cast
        omega
  unfold item_insert
  simp only [Option.getD, hget]
  rw [pyListInsert_nonneg st.items i x hi0 hin]
  rw [indexcur_set_ok _ _ hvv hen hch]
  simp [listbox_widget_update]

theorem item_remove_ok {α : Type} (st : ListboxState α) (i : Int)
    (hen : st.enabled = true) (hch : st.isChanging = false)
    (hsel : index_is_valid_or_void st st.indexcur = true)
    (hvi : index_is_valid st i = true) :
    item_remove st i true true =
      .ok ({ st with
             items := st.items.eraseIdx i.toNat,
             indexcur :=
               if st.indexcur ≠ -1 then
                 (if st.indexcur > ((st.items.eraseIdx i.toNat).length : Int) - 1
                  then ((st.items.eraseIdx i.toNat).length : Int) - 1
                  else st.indexcur)
               else st.indexcur,
             isResetting := false, isChanging := false },
        [ITEMCUR_CHANGE_SOON, ITEMS_CHANGE_SOON, ITEMS_CHANGE_DONE, ITEMCUR_CHANGE_DONE]) := by
  have hget := indexcur_get_of_valid_or_void st hsel
  have hvv := remove_clamp_valid_or_void st i hvi
  rw [hget] at hvv
  have hvv2 : index_is_valid_or_void { st with items := st.items.eraseIdx i.toNat }
      (if st.indexcur ≠ -1 then
        (if st.indexcur > ((st.items.eraseIdx i.toNat).length : Int) - 1
         then ((st.items.eraseIdx i.toNat).length : Int) - 1
         else st.indexcur)
       else st.indexcur) = true := by
    simpa [index_last, lb_size] using hvv
  unfold item_remove
  rw [if_neg (by simp [hvi])]
  simp only [hget, index_last, lb_size]
  rw [indexcur_set_ok _ _ hvv2 hen hch]
  simp [listbox_widget_update]

/-- `item_insert(item, i)` directly followed by `item_remove(i)`, both with
notifications on and `keep_active` defaulted. -/
def insertThenRemove {α : Type} (st : ListboxState α) (x : α) (i : Int) :
    Except (LbError × ListboxState α) (ListboxState α × List String) :=
  match item_insert st x (some i) true true with
  | .error e => .error e
  | .ok (st1, tr1) =>
    match item_remove st1 i true true with
    | .error e => .error e
    | .ok (st2, tr2) => .ok (st2, tr1 ++ tr2)

/-- Claim C5 (amended): item_insert(item, i) followed by item_remove(i)
returns the items list — hence its length — to the pre-insert value; but the
selection index returns to its pre-insert value s only when there was no
selection (s = -1), when the insertion was strictly after it (i > s), or
when s was the last index (where the removal clamp lands back on s). In the
remaining case 0 ≤ i ≤ s < length - 1 the selection ends at s + 1:
item_remove clamps an overflowing selection but never shifts it down. -/
theorem insert_remove_roundtrip {α : Type} (st : ListboxState α) (x : α) (i : Int)
    (hen : st.enabled = true) (hch : st.isChanging = false)
    (hsel : index_is_valid_or_void st st.indexcur = true)
    (hi0 : 0 ≤ i) (hin : i ≤ (st.items.length : Int)) :
    insertThenRemove st x i =
      .ok ({ st with
             indexcur :=
               if st.indexcur = -1 then -1
               else if i > st.indexcur then st.indexcur
               else if st.indexcur = (st.items.length : Int) - 1 then st.indexcur
               else st.indexcur + 1,
             isResetting := false, isChanging := false },
        [ITEMCUR_CHANGE_SOON, ITEMS_CHANGE_SOON, ITEMS_CHANGE_DONE, ITEMCUR_CHANGE_DONE,
         ITEMCUR_CHANGE_SOON, ITEMS_CHANGE_SOON, ITEMS_CHANGE_DONE, ITEMCUR_CHANGE_DONE]) := by
  have hs : st.indexcur = -1 ∨ (0 ≤ st.indexcur ∧ st.indexcur < (st.items.length : Int)) :=
    (valid_or_void_iff st st.indexcur).mp hsel
  have hitems : (listInsertAt i.toNat x st.items).eraseIdx i.toNat = st.items :=
    listInsertAt_eraseIdx _ _ _ (by omega)
  have hselI : index_is_valid_or_void
      ({ st with
         items := listInsertAt i.toNat x st.items,
         indexcur := if st.indexcur ≠ -1 ∧ st.indexcur ≥ i then st.indexcur + 1 else st.indexcur,
         isResetting := false, isChanging := false } : ListboxState α)
      (if st.indexcur ≠ -1 ∧ st.indexcur ≥ i then st.indexcur + 1 else st.indexcur) = true := by
    rw [valid_or_void_iff]
    simp only [listInsertAt_length]
    rcases hs with h | h
    · rw [if_neg (by simp [h])]
      left
      exact h
    · by_cases hge : st.indexcur ≥ i
      · rw [if_pos ⟨by omega, hge⟩]
        right
        push_cast
        omega
      · rw [if_neg (by tauto)]
        right
        push_cast
        omega
  have hviI : index_is_valid
      ({ st with
         items := listInsertAt i.toNat x st.items,
         indexcur := if st.indexcur ≠ -1 ∧ st.indexcur ≥ i then st.indexcur + 1 else st.indexcur,
         isResetting := false, isChanging := false } : ListboxState α) i = true := by
    simp only [index_is_valid, lb_size, listInsertAt_length]
    rw [Bool.and_eq_true, decide_eq_true_eq, decide_eq_true_eq]
    push_cast
    omega
  unfold insertThenRemove
  rw [item_insert_ok st x i hen hch hsel hi0 hin]
  dsimp only
  rw [item_remove_ok
    ({ st with
       items := listInsertAt i.toNat x st.items,
       indexcur := if st.indexcur ≠ -1 ∧ st.indexcur ≥ i then st.indexcur + 1 else st.indexcur,
       isResetting := false, isChanging := false } : ListboxState α) i hen rfl hselI hviI]
  dsimp only
  rw [hitems]
  have hidx :
      (if (if st.indexcur ≠ -1 ∧ st.indexcur ≥ i then st.indexcur + 1 else st.indexcur) ≠ -1 then
        (if (if st.indexcur ≠ -1 ∧ st.indexcur ≥ i then st.indexcur + 1 else st.indexcur) >
              (st.items.length : Int) - 1
         then (st.items.length : Int) - 1
         else (if st.indexcur ≠ -1 ∧ st.indexcur ≥ i then st.indexcur + 1 else st.indexcur))
       else (if st.indexcur ≠ -1 ∧ st.indexcur ≥ i then st.indexcur + 1 else st.indexcur)) =
      (if st.indexcur = -1 then -1
       else if i > st.indexcur then st.indexcur
       else if st.indexcur = (st.items.length : Int) - 1 then st.indexcur
       else st.indexcur + 1) := by
    rcases hs with h | h
    · simp [h]
    · split_ifs <;> omega
  rw [hidx]
  rfl

/-- Claim C5 witness: items [10,20,30], selection 2 (the last index), insert
at 1 then remove at 1: both the items and the selection are restored. -/
theorem insert_remove_roundtrip_witness :
    insertThenRemove
        ({ items := [10, 20, 30], indexcur := 2, isChanging := false, isResetting := false,
           enabled := true } : ListboxState Nat) 99 1 =
      .ok ({ items := [10, 20, 30], indexcur := 2, isChanging := false, isResetting := false,
             enabled := true },
        [ITEMCUR_CHANGE_SOON, ITEMS_CHANGE_SOON, ITEMS_CHANGE_DONE, ITEMCUR_CHANGE_DONE,
         ITEMCUR_CHANGE_SOON, ITEMS_CHANGE_SOON, ITEMS_CHANGE_DONE, ITEMCUR_CHANGE_DONE]) := by
  have h := insert_remove_roundtrip
    ({ items := [10, 20, 30], indexcur := 2, isChanging := false, isResetting := false,
       enabled := true } : ListboxState Nat) 99 1 rfl rfl (by decide) (by decide) (by decide)
  simpa using h

def lbC5 : ListboxState Nat :=
  { items := [10, 20], indexcur := 0, isChanging := false, isResetting := false, enabled := true }

/-- Claim C5 counterexample: items [10,20], selection 0, insert at 0 (so
i ≤ selection) then remove at 0: the length is restored but the selection
ends at 1, not at its pre-insert value 0. -/
theorem insert_remove_not_inverse_on_selection :
    insertThenRemove lbC5 99 0 =
      .ok ({ items := [10, 20], indexcur := 1, isChanging := false, isResetting := false,
             enabled := true },
        [ITEMCUR_CHANGE_SOON, ITEMS_CHANGE_SOON, ITEMS_CHANGE_DONE, ITEMCUR_CHANGE_DONE,
         ITEMCUR_CHANGE_SOON, ITEMS_CHANGE_SOON, ITEMS_CHANGE_DONE, ITEMCUR_CHANGE_DONE]) ∧
    (1 : Int) ≠ lbC5.indexcur :=
  ⟨rfl, by decide⟩

/-! ## EntryVidget (tkinterutil/text.py)

The observable state is the cached text (`_text`, what `text()` returns)
and the `_is_changing` guard flag.  The validator is a parameter; the
native entry widget is kept in sync with the cache by the source and the
consistency check in `text_set` passes in this embedding. -/

structure EntryState where
  text : String
  isChanging : Bool
deriving DecidableEq, Repr

def TEXT_CHANGE_SOON : String := "TEXT_CHANGE_SOON"

def TEXT_CHANGE_DONE : String := "TEXT_CHANGE_DONE"

/-- `EntryVidget.text_is_valid`: ask the validator. -/
def text_is_valid (validator : String → Bool) (t : String) : Bool := validator t

/-- `EntryVidget.text_set`: the new text is checked by the validator before
anything else, and a rejected text raises with no mutation at all; then a
re-entrant call raises; an accepted change notifies TEXT_CHANGE_SOON,
caches the new text (and syncs the native widget), notifies
TEXT_CHANGE_DONE. -/
def text_set (validator : String → Bool) (st : EntryState) (t : String) (notify : Bool) :
    Except (String × EntryState) (EntryState × List String) :=
  if ¬text_is_valid validator t then .error ("Text is not valid", st)
  else if st.isChanging then .error ("Text is changing", st)
  else
    let tr1 := if notify then [TEXT_CHANGE_SOON] else []
    let st1 := { st with text := t }
    let tr2 := if notify then [TEXT_CHANGE_DONE] else []
    .ok ({ st1 with isChanging := false }, tr1 ++ tr2)

/-- A sequence of attempted `text_set` calls; a raising call leaves the
object in the state carried by the exception. -/
def text_set_attempts (validator : String → Bool) (st : EntryState) :
    List String → EntryState
  | [] => st
  | t :: ts =>
    match text_set validator st t true with
    | .ok (st1, _) => text_set_attempts validator st1 ts
    | .error (_, st1) => text_set_attempts validator st1 ts

/-- Claim C6: for an EntryVidget whose validator rejects every value, any
number of attempted text_set calls with arbitrary values leaves the state —
in particular the value returned by text() — observably unchanged: each
attempted change is validator-checked before being committed, and the
rejection happens before any mutation. -/
theorem text_set_always_reject_unchanged (validator : String → Bool)
    (hrej : ∀ t, validator t = false) (st : EntryState) (ts : List String) :
    text_set_attempts validator st ts = st ∧
    (text_set_attempts validator st ts).text = st.text := by
  have hmain : text_set_attempts validator st ts = st := by
    induction ts generalizing st with
    | nil => rfl
    | cons t ts ih =>
      unfold text_set_attempts text_set text_is_valid
      rw [if_pos (by simp [hrej t])]
      exact ih st
  exact ⟨hmain, by rw [hmain]⟩

/-- Claim C6 witness: two rejected attempts leave the text "keep". -/
theorem text_set_always_reject_unchanged_witness :
    text_set_attempts (fun _ => false) { text := "keep", isChanging := false } ["x", "y"] =
      { text := "keep", isChanging := false } :=
  (text_set_always_reject_unchanged (fun _ => false) (fun _ => rfl)
    { text := "keep", isChanging := false } ["x", "y"]).1

/-! ## Registry access layer and path navigator (registry.py)

`RegOpenKeyEx` is the external Windows API; it is abstracted as an oracle
deciding whether opening `(hive, optional sub-path)` succeeds for the mask
in use.  Exceptions raised by the API are what `regkey_get` converts to
`None`. -/

/-- Whether `pre` is an initial run of `l`. -/
def charsStartsWith : List Char → List Char → Bool
  | [], _ => true
  | _ :: _, [] => false
  | a :: as, b :: bs => a == b && charsStartsWith as bs

/-- Split a character list at the first occurrence of a (non-empty)
separator: `some (before, after)`, or `none` when the separator is absent. -/
def charsPartition (sep : List Char) : List Char → Option (List Char × List Char)
  | [] => if charsStartsWith sep [] then some ([], []) else none
  | c :: rest =>
    if charsStartsWith sep (c :: rest) then some ([], (c :: rest).drop sep.length)
    else
      match charsPartition sep rest with
      | none => none
      | some (pre, post) => some (c :: pre, post)

/-- Python `str.partition(sep)` for non-empty `sep`: split at the first
occurrence of `sep`, returning (before, sep, after); when `sep` does not
occur, (s, "", ""). -/
def pyPartition (s sep : String) : String × String × String :=
  match charsPartition sep.toList s.toList with
  | none => (s, "", "")
  | some (pre, post) => (String.mk pre, sep, String.mk post)

/-- `_HIVE_NAME_TO_INT` / `_hive_name_to_int`: the five fixed hives. -/
def _hive_name_to_int (name : String) : Option Nat :=
  if name = "HKEY_CLASSES_ROOT" then some 0x80000000
  else if name = "HKEY_CURRENT_CONFIG" then some 0x80000005
  else if name = "HKEY_CURRENT_USER" then some 0x80000001
  else if name = "HKEY_LOCAL_MACHINE" then some 0x80000002
  else if name = "HKEY_USERS" then some 0x80000003
  else none

/-- Abstract registry contents: whether `RegOpenKeyEx(hive, subpath)`
succeeds. A `none` sub-path opens the hive root itself. -/
def RegOracle : Type := String → Option String → Bool

/-- `_regkey_handle_get`: split the path at the first backslash into hive
name and remainder (an empty remainder means the path is a hive name
alone), reject unknown hives, then open through the API. Any raise is
`none` here, matching how `regkey_get` swallows exceptions. -/
def _regkey_handle_get (reg : RegOracle) (path : String) : Option Nat :=
  let parts := pyPartition path "\\"
  let hive_name := parts.1
  let nohive_path : Option String := if parts.2.2 = "" then none else some parts.2.2
  match _hive_name_to_int hive_name with
  | none => none
  | some hive_int => if reg hive_name nohive_path then some hive_int else none

/-- `RegKey` / `RootRegKey` objects: a root key (no handle, empty path) or
an ordinary key with its (closeable) handle and path. -/
inductive RKey
  | root
  | key (handle : Option Nat) (path : String)
deriving DecidableEq, Repr

/-- `regkey_get`: the root path gives the RootRegKey; otherwise resolve a
handle, converting failure to `none`. -/
def regkey_get (reg : RegOracle) (path : String) : Option RKey :=
  if path = "" then some .root
  else
    match _regkey_handle_get reg path with
    | none => none
    | some h => some (.key (some h) path)

/-- `RegKey.closed` — and the `RootRegKey.closed` override, which always
reports the root key as not closed. -/
def rk_closed : RKey → Bool
  | .root => false
  | .key h _ => h.isNone

/-- `RegKey.close`: raises when already closed, otherwise releases the
handle; the `RootRegKey.close` override does nothing. -/
def rk_close : RKey → Except String RKey
  | .root => .ok .root
  | .key h p =>
    if rk_closed (.key h p) then .error "Already closed"
    else .ok (.key none p)

/-- `regkey_exists`: try to build a RegKey with the read mask; success
means the path exists (and the probe key is closed again). -/
def regkey_exists (reg : RegOracle) (path : String) : Bool :=
  (regkey_get reg path).isSome

def PATH_CHANGE_SOON : String := "PATH_CHANGE_SOON"

def PATH_CHANGE_DONE : String := "PATH_CHANGE_DONE"

/-- `RegKeyPathNavigator` state: the active key path. -/
structure NavState where
  path : String
deriving DecidableEq, Repr

/-- `RegKeyPathNavigator.go_to_path`: with `check` on, a target that does
not resolve raises before any state mutation or event emission (the error
carries the unchanged state); otherwise PATH_CHANGE_SOON is notified while
the old path is still active, the path is mutated, and PATH_CHANGE_DONE is
notified with the new path active. The trace pairs each event name with
the path active at emission time. -/
def go_to_path (reg : RegOracle) (st : NavState) (path : String) (check : Bool) :
    Except (String × NavState) (NavState × List (String × String)) :=
  if check && !regkey_exists reg path then .error (path, st)
  else
    let ev1 := (PATH_CHANGE_SOON, st.path)
    let st1 : NavState := { path := path }
    let ev2 := (PATH_CHANGE_DONE, st1.path)
    .ok (st1, [ev1, ev2])

/-- Claim C1: go_to_path(P, check := true) on a path that does not resolve
raises before any mutation or event emission; otherwise (check off, or the
path exists) it sets the active path so that path() = P, emitting exactly
one PATH_CHANGE_SOON while the old path is active followed by exactly one
PATH_CHANGE_DONE while the new path is active. -/
theorem go_to_path_spec (reg : RegOracle) (st : NavState) (p : String) :
    (regkey_exists reg p = false →
      go_to_path reg st p true = .error (p, st)) ∧
    (∀ check : Bool, (check = true → regkey_exists reg p = true) →
      go_to_path reg st p check =
        .ok ({ path := p }, [(PATH_CHANGE_SOON, st.path), (PATH_CHANGE_DONE, p)])) := by
  constructor
  · intro hne
    unfold go_to_path
    rw [if_pos (by simp [hne])]
  · intro check hok
    unfold go_to_path
    cases check with
    | false => rw [if_neg (by simp)]
    | true => rw [if_neg (by simp [hok rfl])]

/-- Claim C1 witness: on an empty registry, navigating to a bad path with
check on fails with the state unchanged, and an uncheck-ed navigation to
the root succeeds with the SOON/DONE trace. -/
theorem go_to_path_spec_witness :
    go_to_path (fun _ _ => false) { path := "HKEY_CURRENT_USER" } "BADHIVE\\X" true =
      .error ("BADHIVE\\X", { path := "HKEY_CURRENT_USER" }) ∧
    go_to_path (fun _ _ => false) { path := "HKEY_CURRENT_USER" } "" false =
      .ok ({ path := "" },
        [(PATH_CHANGE_SOON, "HKEY_CURRENT_USER"), (PATH_CHANGE_DONE, "")]) :=
  ⟨(go_to_path_spec (fun _ _ => false) { path := "HKEY_CURRENT_USER" } "BADHIVE\\X").1 rfl,
   (go_to_path_spec (fun _ _ => false) { path := "HKEY_CURRENT_USER" } "").2 false
     (fun h => by cases h)⟩

/-- Claim C9: for a RegKey holding an open handle, closed() is false, the
first close() succeeds and marks the handle closed, and a second close()
on the same handle raises instead of being silently ignored. -/
theorem rk_close_twice_errors (h : Nat) (p : String) :
    rk_closed (.key (some h) p) = false ∧
    rk_close (.key (some h) p) = .ok (.key none p) ∧
    rk_closed (.key none p) = true ∧
    rk_close (.key none p) = .error "Already closed" :=
  ⟨rfl, rfl, rfl, rfl⟩

/-- Iterated `close()` calls, stopping at the first raise. -/
def rk_close_iter : Nat → RKey → Except String RKey
  | 0, k => .ok k
  | n + 1, k =>
    match rk_close k with
    | .error m => .error m
    | .ok k1 => rk_close_iter n k1

/-- Claim C10: regkey_get on the empty root path returns the RootRegKey
whatever the registry contents; closing it any number of times is a no-op
that never raises, and closed() stays false throughout. -/
theorem root_close_noop (reg : RegOracle) (n : Nat) :
    regkey_get reg "" = some .root ∧
    rk_close_iter n .root = .ok .root ∧
    rk_closed .root = false := by
  refine ⟨rfl, ?_, rfl⟩
  induction n with
  | zero => rfl
  | succ n ih => simpa [rk_close_iter, rk_close] using ih

/-! ## MenuTree (tkinterutil/menu.py)

`_id_to_info` is a Python OrderedDict from item id to an info dict
(parent id, sibling index, widget); it is embedded as an association
list.  The native Tk menu state the code reads back — `widget.index(END)`,
the last native entry index — is tracked as a per-menu-item native child
count.  Only the top item carries no sibling index (`None` in the
source). -/

def assocFind {β : Type} : List (String × β) → String → Option β
  | [], _ => none
  | (k, v) :: rest, key => if key = k then some v else assocFind rest key

def assocUpsert {β : Type} : List (String × β) → String → β → List (String × β)
  | [], key, v => [(key, v)]
  | (k, w) :: rest, key, v =>
    if key = k then (k, v) :: rest else (k, w) :: assocUpsert rest key v

def assocRemove {β : Type} : List (String × β) → String → List (String × β)
  | [], _ => []
  | (k, v) :: rest, key => if key = k then rest else (k, v) :: assocRemove rest key

inductive MWidget
  | menu
  | command
  | separator
deriving DecidableEq, Repr

structure MenuInfo where
  pid : Option String
  index : Option Int
  widget : MWidget
deriving DecidableEq, Repr

structure MenuTreeState where
  idToInfo : List (String × MenuInfo)
  nativeCount : List (String × Nat)
deriving DecidableEq, Repr

/-- `INFO_K_ID_V_TOP`: the top menu id, also the default id separator. -/
def MT_TOP : String := "/"

/-- `MenuTree.__init__` with the default separator: the top menu is
registered with no parent, no index, and an empty native menu. -/
def menuTreeInit : MenuTreeState :=
  { idToInfo := [(MT_TOP, { pid := none, index := none, widget := .menu })],
    nativeCount := [(MT_TOP, 0)] }

/-- `MenuTree.item_is_menu`: raises for an unknown id. -/
def item_is_menu (st : MenuTreeState) (id : String) : Except String Bool :=
  match assocFind st.idToInfo id with
  | none => .error "Item ID not exists"
  | some info => .ok (info.widget == .menu)

/-- `MenuTree.item_child_index_last`: the maximum sibling index among the
infos whose parent is the given menu, or -1 with no child (the source
sorts the child indexes and takes the last). -/
def item_child_index_last (st : MenuTreeState) (id : String) : Int :=
  let idxs := st.idToInfo.filterMap
    (fun p => if p.2.pid = some id then p.2.index else none)
  idxs.foldl (fun acc ix => if ix > acc then ix else acc) (-1)

/-- `MenuTree._item_child_index_last_internal`: the native menu's
`index(END)`, i.e. its entry count minus one, -1 when empty. -/
def item_child_index_last_internal (st : MenuTreeState) (id : String) :
    Except String Int :=
  match assocFind st.idToInfo id with
  | none => .error "Item ID not exists"
  | some info =>
    if info.widget ≠ .menu then .error "Item ID not refers to menu"
    else .ok (((assocFind st.nativeCount id).getD 0 : Int) - 1)

/-- `MenuTree._id_to_full_default`: concatenate parent id, separator and
relative id, except that under the top menu with a separator equal to the
top id the separator is not doubled. -/
def _id_to_full_default (id pid id_sep : String) : String :=
  if pid = MT_TOP then
    (if id_sep = MT_TOP then pid ++ id else pid ++ id_sep ++ id)
  else pid ++ id_sep ++ id

/-- `MenuTree._add_info_dict`: called after the native widget insertion;
re-checks id/pid, verifies the bookkeeping is exactly one behind the
native menu, validates the index, shifts every sibling at or after the
insertion point up by one, and appends the new info (dict insertion). -/
def _add_info_dict (st : MenuTreeState) (pid id : String) (index : Int)
    (widget : MWidget) : Except String MenuTreeState :=
  if (assocFind st.idToInfo id).isSome then .error "Item ID exists"
  else
    match item_is_menu st pid with
    | .error m => .error m
    | .ok false => .error "Item ID not refers to menu"
    | .ok true =>
      let index_last := item_child_index_last st pid
      match item_child_index_last_internal st pid with
      | .error m => .error m
      | .ok index_last_internal =>
        if index_last ≠ index_last_internal - 1 then
          .error "Menu item has been modified outside"
        else if ¬(0 ≤ index ∧ index ≤ index_last + 1) then
          .error "Item index is not valid"
        else
          let shifted := st.idToInfo.map (fun p =>
            if p.2.pid = some pid then
              match p.2.index with
              | some ix =>
                if ix ≥ index then (p.1, { p.2 with index := some (ix + 1) }) else p
              | none => p
            else p)
          .ok { st with
                idToInfo :=
                  shifted ++ [(id, { pid := some pid, index := some index, widget := widget })] }

/-- `MenuTree.add_item` with a relative id, the default separator and no
explicit index: check the parent is a menu, build the full id, reject
collisions, verify bookkeeping against the native menu, default the index
to append, insert the native entry (a new menu widget starts with an empty
native menu), then record the info. -/
def add_item (st : MenuTreeState) (pid id : String) (kind : MWidget)
    (index? : Option Int) : Except String MenuTreeState :=
  match item_is_menu st pid with
  | .error m => .error m
  | .ok false => .error "Item ID not refers to menu"
  | .ok true =>
    let full_id := _id_to_full_default id pid MT_TOP
    if (assocFind st.idToInfo full_id).isSome then .error "Item ID exists"
    else
      let last_index := item_child_index_last st pid
      match item_child_index_last_internal st pid with
      | .error m => .error m
      | .ok last_index_internal =>
        if last_index ≠ last_index_internal then
          .error "Menu item has been modified outside"
        else
          let index := index?.getD (last_index + 1)
          if ¬(0 ≤ index ∧ index ≤ last_index + 1) then
            .error "Item index is not valid"
          else
            let st1 : MenuTreeState :=
              { st with
                nativeCount :=
                  assocUpsert st.nativeCount pid ((assocFind st.nativeCount pid).getD 0 + 1) }
            let st2 : MenuTreeState :=
              if kind == .menu then
                { st1 with nativeCount := assocUpsert st1.nativeCount full_id 0 }
              else st1
            _add_info_dict st2 pid full_id index kind

def add_menu (st : MenuTreeState) (pid id : String) : Except String MenuTreeState :=
  add_item st pid id .menu none

def add_command (st : MenuTreeState) (pid id : String) : Except String MenuTreeState :=
  add_item st pid id .command none

mutual

/-- `MenuTree.remove_item` (fuel-indexed; the initial fuel bounds the
recursion depth by the registry size).  Refuses the top menu, deletes the
native entry from the parent menu, then walks a snapshot of all item ids:
children of the removed item are removed recursively, and every sibling
with an index greater than the removed item's index is shifted down by
one; finally the item's own info entry is deleted. -/
def remove_item_go : Nat → MenuTreeState → String → Except String MenuTreeState
  | 0, _, _ => .error "Out of fuel"
  | fuel + 1, st, id =>
    if id = MT_TOP then .error "Cannot remove top menu"
    else
      match assocFind st.idToInfo id with
      | none => .error "Item ID not exists"
      | some info =>
        match info.pid with
        | none => .error "Item ID not exists"
        | some p =>
          match assocFind st.idToInfo p with
          | none => .error "Item ID not exists"
          | some pinfo =>
            if pinfo.widget ≠ .menu then .error "Item ID not refers to menu"
            else
              let st1 : MenuTreeState :=
                { st with
                  nativeCount :=
                    assocUpsert st.nativeCount p ((assocFind st.nativeCount p).getD 0 - 1) }
              match remove_loop_go fuel (st1.idToInfo.map Prod.fst) id p info.index st1 with
              | .error m => .error m
              | .ok st2 => .ok { st2 with idToInfo := assocRemove st2.idToInfo id }

/-- The `for x_item_id in self.item_ids()` loop of `remove_item` (one unit
of fuel per processed id): ids already removed by the recursion are
skipped; a child of the removed item is removed recursively; a sibling
with a greater index is shifted down. -/
def remove_loop_go : Nat → List String → String → String → Option Int → MenuTreeState →
    Except String MenuTreeState
  | 0, _, _, _, _, _ => .error "Out of fuel"
  | _ + 1, [], _, _, _, st => .ok st
  | fuel + 1, x :: rest, id, p, item_index, st =>
    match assocFind st.idToInfo x with
    | none => remove_loop_go fuel rest id p item_index st
    | some xinfo =>
      if xinfo.pid = some id then
        match remove_item_go fuel st x with
        | .error m => .error m
        | .ok st1 => remove_loop_go fuel rest id p item_index st1
      else if xinfo.pid = some p then
        match xinfo.index, item_index with
        | some xi, some ii =>
          if xi > ii then
            remove_loop_go fuel rest id p item_index
              { st with
                idToInfo := assocUpsert st.idToInfo x { xinfo with index := some (xi - 1) } }
          else remove_loop_go fuel rest id p item_index st
        | _, _ => remove_loop_go fuel rest id p item_index st
      else remove_loop_go fuel rest id p item_index st

end

/-- `MenuTree.remove_item`: run the fuel-indexed removal with fuel that is
ample for any terminating run — every unit of recursion depth or loop
progress consumes one unit, and both are bounded by the registry size. -/
def remove_item (st : MenuTreeState) (id : String) : Except String MenuTreeState :=
  remove_item_go ((st.idToInfo.length + 2) * (st.idToInfo.length + 2)) st id

/-- State after `add_menu('/', 'A')` on a fresh tree. -/
def mtS1 : MenuTreeState :=
  { idToInfo :=
      [(MT_TOP, { pid := none, index := none, widget := .menu }),
       ("/A", { pid := some MT_TOP, index := some 0, widget := .menu })],
    nativeCount := [(MT_TOP, 1), ("/A", 0)] }

/-- State after the further `add_command('/A', 'B')`. -/
def mtS2 : MenuTreeState :=
  { idToInfo :=
      [(MT_TOP, { pid := none, index := none, widget := .menu }),
       ("/A", { pid := some MT_TOP, index := some 0, widget := .menu }),
       ("/A/B", { pid := some "/A", index := some 0, widget := .command })],
    nativeCount := [(MT_TOP, 1), ("/A", 1)] }

/-- State after a further sibling `add_menu('/', 'D')`. -/
def mtS3 : MenuTreeState :=
  { idToInfo :=
      [(MT_TOP, { pid := none, index := none, widget := .menu }),
       ("/A", { pid := some MT_TOP, index := some 0, widget := .menu }),
       ("/A/B", { pid := some "/A", index := some 0, widget := .command }),
       ("/D", { pid := some MT_TOP, index := some 1, widget := .menu })],
    nativeCount := [(MT_TOP, 2), ("/A", 1), ("/D", 0)] }

/-- State after `remove_item('/A')` from `mtS3`: '/A' and its descendant
'/A/B' are gone and the sibling '/D' shifted from index 1 to 0. -/
def mtS4 : MenuTreeState :=
  { idToInfo :=
      [(MT_TOP, { pid := none, index := none, widget := .menu }),
       ("/D", { pid := some MT_TOP, index := some 0, widget := .menu })],
    nativeCount := [(MT_TOP, 1), ("/A", 0), ("/D", 0)] }

/-- State after the final `add_menu('/', 'C')` from `mtS4`: '/C' lands at
the next free sibling index 1. -/
def mtS5 : MenuTreeState :=
  { idToInfo :=
      [(MT_TOP, { pid := none, index := none, widget := .menu }),
       ("/D", { pid := some MT_TOP, index := some 0, widget := .menu }),
       ("/C", { pid := some MT_TOP, index := some 1, widget := .menu })],
    nativeCount := [(MT_TOP, 2), ("/A", 0), ("/D", 0), ("/C", 0)] }

/-- State after `remove_item('/A')` directly from `mtS2` (the claim's
literal scenario, with no extra sibling). -/
def mtT1 : MenuTreeState :=
  { idToInfo := [(MT_TOP, { pid := none, index := none, widget := .menu })],
    nativeCount := [(MT_TOP, 0), ("/A", 0)] }

/-- State after `add_menu('/', 'C')` from `mtT1`: '/C' lands at index 0. -/
def mtT2 : MenuTreeState :=
  { idToInfo :=
      [(MT_TOP, { pid := none, index := none, widget := .menu }),
       ("/C", { pid := some MT_TOP, index := some 0, widget := .menu })],
    nativeCount := [(MT_TOP, 1), ("/A", 0), ("/C", 0)] }

/-- Claim C7: on a fresh MenuTree with root id '/' and separator '/',
add_menu('/', 'A') then add_command('/A', 'B') registers the command under
full id '/A/B' (no double separator after the root id); remove_item('/A')
also removes the descendant '/A/B' recursively and shifts siblings with a
greater index down by one (shown with the extra sibling '/D': index 1 to
0); and a subsequent add_menu('/', 'C') succeeds — its internal
consistency check against the native menu passes — landing at the next
free sibling index in both the with-sibling and the literal no-sibling
runs. -/
theorem menu_tree_scenario :
    add_menu menuTreeInit MT_TOP "A" = .ok mtS1 ∧
    add_command mtS1 "/A" "B" = .ok mtS2 ∧
    assocFind mtS2.idToInfo "/A/B" =
      some { pid := some "/A", index := some 0, widget := .command } ∧
    add_menu mtS2 MT_TOP "D" = .ok mtS3 ∧
    remove_item mtS3 "/A" = .ok mtS4 ∧
    assocFind mtS4.idToInfo "/A" = none ∧
    assocFind mtS4.idToInfo "/A/B" = none ∧
    assocFind mtS4.idToInfo "/D" =
      some { pid := some MT_TOP, index := some 0, widget := .menu } ∧
    add_menu mtS4 MT_TOP "C" = .ok mtS5 ∧
    assocFind mtS5.idToInfo "/C" =
      some { pid := some MT_TOP, index := some 1, widget := .menu } ∧
    remove_item mtS2 "/A" = .ok mtT1 ∧
    add_menu mtT1 MT_TOP "C" = .ok mtT2 ∧
    assocFind mtT2.idToInfo "/C" =
      some { pid := some MT_TOP, index := some 0, widget := .menu } := by
  refine ⟨rfl, rfl, rfl, rfl, rfl, rfl, rfl, rfl, rfl, rfl, rfl, rfl, rfl⟩

/-! ## Per-path selection memo (registry_editor.py)

The memo is a dict from registry key path to the last-known child-keys
listbox active index; the child keys listbox is a ListboxVidget holding
child-name strings.  The navigator's active path is the memo key in use. -/

structure MemoState where
  memo : List (String × Int)
  navPath : String
  lb : ListboxState String
deriving DecidableEq, Repr

/-- `RegistryEditor._child_keys_listbox_indexcur_remember`: store the
child listbox active index under the active path — except when the path
is not the root and the active item is the synthetic `go up` entry at
index 0, in which case nothing is stored. -/
def indexcur_remember (ms : MemoState) : MemoState :=
  let key_path := ms.navPath
  let idx := indexcur_get ms.lb
  if key_path ≠ "" ∧ idx = 0 then ms
  else { ms with memo := assocUpsert ms.memo key_path idx }

/-- `RegistryEditor._child_keys_listbox_indexcur_recover`: no memo entry
for the active path — do nothing; entry equal to the current active index
— do nothing; entry greater than the listbox's last index — stale, delete
the entry; otherwise restore it through `indexcur_set` (notify on). -/
def indexcur_recover (ms : MemoState) :
    Except (LbError × MemoState) MemoState :=
  match assocFind ms.memo ms.navPath with
  | none => .ok ms
  | some m =>
    if m = indexcur_get ms.lb then .ok ms
    else if m > index_last ms.lb then
      .ok { ms with memo := assocRemove ms.memo ms.navPath }
    else
      match indexcur_set ms.lb m true with
      | .error (e, lb1) => .error (e, { ms with lb := lb1 })
      | .ok (lb1, _) => .ok { ms with lb := lb1 }

/-- `RegistryEditor._child_keys_listbox_on_nav_path_change`, reduced to
its listbox and memo effect: display the (already case-insensitively
sorted) child names, prefixed with the synthetic `..` entry for a
non-root path; `items_set` runs with notify on and the default
`keep_active=False`, which clears the selection; then the remembered
index is recovered. -/
def on_nav_path_change (ms : MemoState) (sorted_names : List String) :
    Except (LbError × MemoState) MemoState :=
  let disp := if ms.navPath ≠ "" then ".." :: sorted_names else sorted_names
  match items_set ms.lb disp true false with
  | .error (e, lb1) => .error (e, { ms with lb := lb1 })
  | .ok (lb1, _) => indexcur_recover { ms with lb := lb1 }

theorem items_set_ok {α : Type} (st : ListboxState α) (xs : List α)
    (hen : st.enabled = true) (hch : st.isChanging = false) :
    items_set st xs true false =
      .ok ({ st with items := xs, indexcur := -1, isChanging := false },
        [ITEMS_CHANGE_SOON, ITEMS_CHANGE_DONE]) := by
  unfold items_set listbox_widget_update
  rw [if_neg (by simp [hen]), if_neg (by simp [hch])]
  rfl

/-- The observable outcome of a navigation-driven child-list refresh: on
success, the displayed items, the resulting active index, and the memo. -/
def navOutcome (r : Except (LbError × MemoState) MemoState) :
    Option (List String × Int × List (String × Int)) :=
  match r with
  | .ok ms1 => some (ms1.lb.items, indexcur_get ms1.lb, ms1.memo)
  | .error _ => none

theorem indexcur_set_ok_notify {α : Type} (st : ListboxState α) (j : Int)
    (h1 : index_is_valid_or_void st j = true)
    (h2 : st.enabled = true) (h3 : st.isChanging = false) :
    indexcur_set st j true =
      .ok ({ st with indexcur := j, isResetting := false, isChanging := false },
        [ITEMCUR_CHANGE_SOON, ITEMCUR_CHANGE_DONE]) := by
  unfold indexcur_set
  rw [if_neg (by simp [h1]), if_neg (by simp [h2]), if_neg (by simp [h3])]
  rfl

/-- `indexcur_recover` alone, on a state whose listbox selection has just
been cleared (as `items_set` leaves it during a navigation refresh) and a
memo entry m (with the memo-value invariant m ≥ -1, as every remembered
value is a listbox active index): m within bounds is restored with the
memo untouched, an out-of-bounds m leaves the selection cleared and drops
the entry. -/
theorem indexcur_recover_spec (ms : MemoState) (m : Int)
    (hen : ms.lb.enabled = true) (hch : ms.lb.isChanging = false)
    (hcur : ms.lb.indexcur = -1)
    (hm : assocFind ms.memo ms.navPath = some m) (hmge : -1 ≤ m) :
    (m ≤ (ms.lb.items.length : Int) - 1 →
      navOutcome (indexcur_recover ms) = some (ms.lb.items, m, ms.memo)) ∧
    ((ms.lb.items.length : Int) - 1 < m →
      navOutcome (indexcur_recover ms) =
        some (ms.lb.items, -1, assocRemove ms.memo ms.navPath)) := by
  have hg : indexcur_get ms.lb = -1 := by
    simp [indexcur_get, index_is_valid, hcur]
  have hl : index_last ms.lb = (ms.lb.items.length : Int) - 1 := rfl
  unfold indexcur_recover
  rw [hm]
  dsimp only
  rw [hg, hl]
  constructor
  · intro hle
    by_cases hm1 : m = -1
    · rw [if_pos hm1]
      simp [navOutcome, hg, hm1]
    · rw [if_neg hm1, if_neg (by omega)]
      have hmvalid : index_is_valid_or_void ms.lb m = true := by
        rw [valid_or_void_iff]
        right
        omega
      rw [indexcur_set_ok_notify ms.lb m hmvalid hen hch]
      have hgey : indexcur_get
          ({ ms.lb with indexcur := m, isResetting := false, isChanging := false }) = m := by
        unfold indexcur_get
        rw [if_pos]
        unfold index_is_valid lb_size
        rw [Bool.and_eq_true, decide_eq_true_eq, decide_eq_true_eq]
        dsimp only
        omega
      simp [navOutcome, hgey]
  · intro hgt
    rw [if_neg (by omega), if_pos (by omega)]
    simp [navOutcome, hg]

/-- Claim C8: navigating back to a path with remembered child index m
(m ≥ -1, the invariant of remembered listbox indexes), with the displayed
list (synthetic `..` included for a non-root path) having last index L:
if m ≤ L the remembered index is restored as the selection and the memo
is untouched; if m > L no restoration occurs (the selection stays cleared
at -1) and the stale entry is deleted. And remembering while the active
item is the `go up` entry at index 0 of a non-root path creates no memo
entry. -/
theorem memo_recover_spec (ms : MemoState) (names : List String) (m : Int)
    (hen : ms.lb.enabled = true) (hch : ms.lb.isChanging = false)
    (hm : assocFind ms.memo ms.navPath = some m) (hmge : -1 ≤ m) :
    ((m ≤ ((if ms.navPath ≠ "" then ".." :: names else names).length : Int) - 1 →
      navOutcome (on_nav_path_change ms names) =
        some ((if ms.navPath ≠ "" then ".." :: names else names), m, ms.memo)) ∧
     (((if ms.navPath ≠ "" then ".." :: names else names).length : Int) - 1 < m →
      navOutcome (on_nav_path_change ms names) =
        some ((if ms.navPath ≠ "" then ".." :: names else names), -1,
          assocRemove ms.memo ms.navPath))) ∧
    (ms.navPath ≠ "" → indexcur_get ms.lb = 0 → indexcur_remember ms = ms) := by
  have hdisp :
      on_nav_path_change ms names =
        indexcur_recover
          { ms with lb :=
              { ms.lb with
                items := (if ms.navPath ≠ "" then ".." :: names else names),
                indexcur := -1, isChanging := false } } := by
    unfold on_nav_path_change
    dsimp only
    rw [items_set_ok ms.lb _ hen hch]
  have hrec := indexcur_recover_spec
    { ms with lb :=
        { ms.lb with
          items := (if ms.navPath ≠ "" then ".." :: names else names),
          indexcur := -1, isChanging := false } }
    m hen rfl rfl hm hmge
  refine ⟨⟨?_, ?_⟩, ?_⟩
  · intro hle
    rw [hdisp]
    exact hrec.1 hle
  · intro hgt
    rw [hdisp]
    exact hrec.2 hgt
  · intro h1 h2
    unfold indexcur_remember
    rw [if_pos ⟨h1, h2⟩]

/-- Claim C8 witness: path "HKEY_CURRENT_USER" with remembered index 2 and
three children (plus the `..` entry): the remembered index is restored
and the memo entry is kept. -/
theorem memo_recover_spec_witness :
    navOutcome (on_nav_path_change
        { memo := [("HKEY_CURRENT_USER", 2)], navPath := "HKEY_CURRENT_USER",
          lb := { items := ["old"], indexcur := -1, isChanging := false,
                  isResetting := false, enabled := true } }
        ["S1", "S2", "S3"]) =
      some (["..", "S1", "S2", "S3"], 2, [("HKEY_CURRENT_USER", 2)]) := by
  have h := (memo_recover_spec
    { memo := [("HKEY_CURRENT_USER", 2)], navPath := "HKEY_CURRENT_USER",
      lb := { items := ["old"], indexcur := -1, isChanging := false,
              isResetting := false, enabled := true } }
    ["S1", "S2", "S3"] 2 rfl rfl rfl (by decide)).1.1 (by decide)
  simpa using h

/-- Claim C2: for every Eventor, notifying an event name invokes, in
registration order, every handler registered for that name, and after
them, in registration order, every handler registered under the
wildcard name `None`; if no handler is registered for either, the
notification invokes nothing (and the registry is a value the
notification never modifies). -/
theorem handler_notify_spec {η : Type} [DecidableEq η]
    (ops : List (Option String × η)) (st : List (Option String × List η)) (s : String)
    (hadd : addAll [] ops = .ok st) :
    handler_notify st (some s) =
      (ops.filter (fun p => decide (p.1 = some s))).map Prod.snd ++
        (ops.filter (fun p => decide (p.1 = none))).map Prod.snd ∧
    ((ops.filter (fun p => decide (p.1 = some s))).map Prod.snd = [] →
      (ops.filter (fun p => decide (p.1 = none))).map Prod.snd = [] →
        handler_notify st (some s) = []) := by
  have h1 := lookD_addAll ops [] st hadd (some s)
  have h2 := lookD_addAll ops [] st hadd none
  have hmain : handler_notify st (some s) =
      (ops.filter (fun p => decide (p.1 = some s))).map Prod.snd ++
        (ops.filter (fun p => decide (p.1 = none))).map Prod.snd := by
    rw [handler_notify_eq_lookD, h1, h2]
    simp [lookD, ehLookup]
  refine ⟨hmain, fun hn1 hn2 => ?_⟩
  rw [hmain, hn1, hn2]
  simp

/-- Claim C2 witness: two handlers, one for event `E`, one wildcard. -/
theorem handler_notify_spec_witness :
    handler_notify [(some "E", [(1 : Nat)]), (none, [2])] (some "E") = [1, 2] := by
  have h := handler_notify_spec [(some "E", (1 : Nat)), (none, 2)]
    [(some "E", [1]), (none, [2])] "E" (by rfl)
  simpa using h.1

end AoikRE
